import Mathlib

/-!
# GeMovies — "Nancy" recommendation engine, shallow embedding

A shallow embedding of the algorithmic core of the repository's `nancy`
Django app, translated from the Python source:

* `nancy/nlp_utils.py`    — `normalize_string`, `get_closest_genre`,
  `enhanced_parse_query` (plus the `GENRES_LIST` / `GENRE_VARIATIONS`
  vocabularies);
* `nancy/recommendation.py` — the `MODELS` artifact store and
  `generate_recommendations`;
* `nancy/views.py`        — `recommend_movies`, `fetch_movies_by_genre` /
  `_by_actor` / `_by_director`, and the aggregation+truncation done in
  `RecommendMoviesView.post`;
* `nancy/management/commands/regenerate_models.py` — the offline build of
  the `indices` Series (the title index).

Modelling conventions:

* Python strings are Lean `String`s; `s.lower()` is a per-character map
  (`pyLower`); `s.replace('-','')` is a filter.  `a in b` on strings is
  substring containment (`containsSeq`).
* Similarity scores (numpy floats) are embedded as `ℚ`; the concrete
  matrices the claims evaluate use only exactly-representable values.
* A pandas `Series` used as a mapping (the title index) is a list of
  (label, value) pairs in frame order; `label in series` is membership
  among labels and `series[label]` is the first matching value (the
  scalar case; on duplicate labels pandas returns a sub-Series, which the
  offline-build theorems treat directly on the pair list).
* A Python `set` of strings is a first-seen-order duplicate-free list
  (`setAdd` / `setUpdate` / `dedup`); set iteration order in CPython is
  arbitrary, and no theorem below depends on the order, only on content.
* `random.shuffle` and the external matchers (SpaCy's NER/POS, fuzzywuzzy's
  scorer) are oracles: the embedding takes the shuffle as a function
  parameter, the SpaCy output as an `NLPDoc` value and the fuzzy scorer as
  a `String → String → Nat` (a fuzzywuzzy percentage); fuzzywuzzy's
  `process.extract(..., limit=1)` selection of the best-scoring choice is
  embedded concretely (`extractOne`).
* `DataFrame.iloc[0]` on an empty frame raises `IndexError`; the one code
  path that can reach it (the NER movie-title branch) is embedded with
  `Option`, `none` standing for the raised exception.
-/

/-! ## Python string primitives -/

/-- Python `s.lower()`, modelled per character with `Char.toLower`
(the ASCII case mapping; every string the claims touch is ASCII). -/
def pyLower (s : String) : String :=
  String.mk (s.data.map Char.toLower)

/-- `nlp_utils.normalize_string` (and its copy in `regenerate_models.py`):
`s.replace('-', '').lower()` — drop every hyphen, then lowercase. -/
def normalize_string (s : String) : String :=
  String.mk ((s.data.filter (fun c => c ≠ '-')).map Char.toLower)

/-- Python `needle in haystack` for strings: contiguous-substring test. -/
def containsSeq (needle : List Char) : List Char → Bool
  | [] => needle.isEmpty
  | c :: rest => needle.isPrefixOf (c :: rest) || containsSeq needle rest

/-- Python `s.strip()`: remove leading and trailing whitespace. -/
def stripStr (s : String) : String :=
  String.mk (((s.data.dropWhile Char.isWhitespace).reverse.dropWhile
    Char.isWhitespace).reverse)

/-! ## Data model

`nancy/models.py` `Movie`: title is required and unique at the ORM level;
description, genres, actors, directors are nullable (`blank=True,
null=True`), so they are `Option String` here, `none` standing for a
pandas `NaN`. -/

structure MovieRow where
  title : String
  description : Option String
  genres : Option String
  actors : Option String
  directors : Option String
deriving DecidableEq

/-- `df['col'].str.contains(name, case=False, na=False)` for one cell:
`False` on a missing value, otherwise case-insensitive substring test.
(pandas interprets the pattern as a regex; every pattern the claims use is
a literal, where the two notions agree.) -/
def containsCI (cell : Option String) (needle : String) : Bool :=
  match cell with
  | none => false
  | some s => containsSeq (pyLower needle).data (pyLower s).data

/-! ## The pandas Series used as the title index

`indices` maps normalized titles (the Series index labels) to DataFrame
row positions (the values), kept in frame order. -/

/-- `label in series`. -/
def seriesMem (ind : List (String × Nat)) (label : String) : Bool :=
  ind.any (fun p => p.1 == label)

/-- `series[label]` in the scalar case: the first value carrying the
label (pandas would return a sub-Series when the label repeats). -/
def seriesGet (ind : List (String × Nat)) (label : String) : Nat :=
  match ind.find? (fun p => p.1 == label) with
  | some p => p.2
  | none => 0

/-- `Series.drop_duplicates()` with the default `keep='first'`: pandas
drops entries whose *value* repeats, not entries whose index label
repeats. -/
def seriesDropDuplicates : List (String × Nat) → List Nat → List (String × Nat)
  | [], _ => []
  | p :: rest, seen =>
    if p.2 ∈ seen then seriesDropDuplicates rest seen
    else p :: seriesDropDuplicates rest (p.2 :: seen)

/-- `regenerate_models.py`, `Command.handle` lines 27 and 38: normalize
every title (`normalize_string(x.lower())`), then
`pd.Series(df_movies.index, index=df_movies['normalized_title']).drop_duplicates()`. -/
def createIndices (titles : List String) : List (String × Nat) :=
  seriesDropDuplicates
    ((titles.map (fun t => normalize_string (pyLower t))).enum.map
      (fun p => (p.2, p.1))) []

/-! ## Python sets of strings, as first-seen-order duplicate-free lists -/

/-- `set.add(x)`. -/
def setAdd (s : List String) (x : String) : List String :=
  if x ∈ s then s else s ++ [x]

/-- `set.update(xs)`. -/
def setUpdate (s : List String) (xs : List String) : List String :=
  xs.foldl setAdd s

/-- `list(set(l))`, keeping the first occurrence of each element. -/
def dedup (l : List String) : List String :=
  l.foldl setAdd []

/-! ## The neighbors lookup (cosine rows)

Both `views.recommend_movies` and the specific-movies branch of
`generate_recommendations` run
`sorted(list(enumerate(cosine_sim[idx])), key=lambda x: x[1], reverse=True)[1:11]`.
Python's `sorted(..., reverse=True)` is stable: rows with equal score keep
their original (ascending-index) order. -/

/-- Stable insertion for a descending sort by score: the inserted element
goes before the first strictly smaller (or equal-from-later) score; since
the fold below inserts from the right, an element placed at `≥` keeps
earlier rows ahead of later equal-score rows, exactly Python's stable
`sorted(..., reverse=True)`. -/
def insertScoreDesc (x : Nat × ℚ) : List (Nat × ℚ) → List (Nat × ℚ)
  | [] => [x]
  | y :: ys => if x.2 ≥ y.2 then x :: y :: ys else y :: insertScoreDesc x ys

def sortScoresDesc (l : List (Nat × ℚ)) : List (Nat × ℚ) :=
  l.foldr insertScoreDesc []

/-- `views.py` `recommend_movies(title, ...)`: lowercase the title (only
`.lower()` here, not `normalize_string`), look it up in `indices`, and — if
present — take rows `[1:11]` of the stably descending-sorted cosine row,
reading titles off `df_movies` by position (`iloc` is total on the indices
an N×N matrix produces; out-of-range positions, which would raise, are
skipped). -/
def recommend_movies (title : String) (cosine_sim : List (List ℚ))
    (indices : List (String × Nat)) (df_movies : List MovieRow) : List String :=
  let t := pyLower title
  if seriesMem indices t then
    let idx := seriesGet indices t
    let sim_scores := sortScoresDesc (cosine_sim.getD idx []).enum
    let top := (sim_scores.drop 1).take 10
    (top.map Prod.fst).filterMap (fun i => (df_movies.get? i).map MovieRow.title)
  else []

/-! ## `nancy/recommendation.py` -/

/-- The `MODELS` dictionary after `load_models()`: `load_models` stops at
the first artifact whose unpickling raises, catches the exception and only
prints it, so any prefix of the four artifacts may be present. -/
structure Models where
  cosine_sim : Option (List (List ℚ))
  df_movies : Option (List MovieRow)
  indices : Option (List (String × Nat))
  tfidf : Option Unit
deriving DecidableEq

/-- The parsed query (`enhanced_parse_query`'s result dictionary). -/
structure ParsedQuery where
  genres : List String
  specific_movies : List String
  actors : List String
  directors : List String
deriving DecidableEq

/-- `generate_recommendations`, specific-movies branch: guarded by
`specific_movies and all(k in MODELS for k in ('cosine_sim', 'df_movies',
'indices'))`; per seed, the same `[1:11]` slice of the stably sorted
cosine row, each title added to the recommendation set. -/
def specificBranch (m : Models) (pq : ParsedQuery) (recs : List String) :
    List String :=
  match m.cosine_sim, m.df_movies, m.indices with
  | some cosine_sim, some df_movies, some indices =>
    if pq.specific_movies = [] then recs
    else
      pq.specific_movies.foldl (fun acc movie =>
        let movie_normalized := normalize_string movie
        if seriesMem indices movie_normalized then
          let idx := seriesGet indices movie_normalized
          let sim_scores := sortScoresDesc (cosine_sim.getD idx []).enum
          ((sim_scores.drop 1).take 10).foldl (fun a p =>
            match df_movies.get? p.1 with
            | some r => setAdd a r.title
            | none => a) acc
        else acc) recs
  | _, _, _ => recs

/-- `generate_recommendations`, genre branch: needs only `df_movies`;
per genre, the contains-filtered titles are shuffled and the first 10
update the set. -/
def genreBranch (m : Models) (shuffle : List String → List String)
    (pq : ParsedQuery) (recs : List String) : List String :=
  match m.df_movies with
  | some df_movies =>
    if pq.genres = [] then recs
    else
      pq.genres.foldl (fun acc genre =>
        let genre_recs :=
          (df_movies.filter (fun r => containsCI r.genres genre)).map MovieRow.title
        if genre_recs = [] then acc
        else setUpdate acc ((shuffle genre_recs).take 10)) recs
  | none => recs

/-- `generate_recommendations`, actor branch (same pattern on `actors`). -/
def actorBranch (m : Models) (shuffle : List String → List String)
    (pq : ParsedQuery) (recs : List String) : List String :=
  match m.df_movies with
  | some df_movies =>
    if pq.actors = [] then recs
    else
      pq.actors.foldl (fun acc actor =>
        let actor_recs :=
          (df_movies.filter (fun r => containsCI r.actors actor)).map MovieRow.title
        if actor_recs = [] then acc
        else setUpdate acc ((shuffle actor_recs).take 10)) recs
  | none => recs

/-- `generate_recommendations`, director branch (same pattern on
`directors`). -/
def directorBranch (m : Models) (shuffle : List String → List String)
    (pq : ParsedQuery) (recs : List String) : List String :=
  match m.df_movies with
  | some df_movies =>
    if pq.directors = [] then recs
    else
      pq.directors.foldl (fun acc director =>
        let director_recs :=
          (df_movies.filter (fun r => containsCI r.directors director)).map MovieRow.title
        if director_recs = [] then acc
        else setUpdate acc ((shuffle director_recs).take 10)) recs
  | none => recs

/-- The final loop `for movie in specific_movies: recommendations.discard(movie)`. -/
def discardSeeds (pq : ParsedQuery) (recs : List String) : List String :=
  pq.specific_movies.foldl (fun acc movie => acc.filter (fun t => t ≠ movie)) recs

/-- `recommendation.generate_recommendations(parsed_query)`: the four
branches in source order, then the seeds discarded, then `list(...)`.
`random.shuffle` is the `shuffle` oracle. -/
def generate_recommendations (m : Models) (shuffle : List String → List String)
    (pq : ParsedQuery) : List String :=
  discardSeeds pq
    (directorBranch m shuffle pq
      (actorBranch m shuffle pq
        (genreBranch m shuffle pq
          (specificBranch m pq []))))

/-! ## `views.py` helpers and the aggregation in `RecommendMoviesView.post` -/

/-- `fetch_movies_by_genre(genre_name)`: contains-filtered titles, capped
at 10 by the caller-side `[:10]`. -/
def fetch_movies_by_genre (df_movies : List MovieRow) (genre_name : String) :
    List String :=
  ((df_movies.filter (fun r => containsCI r.genres genre_name)).map MovieRow.title).take 10

/-- `fetch_movies_by_actor(actor_name)`. -/
def fetch_movies_by_actor (df_movies : List MovieRow) (actor_name : String) :
    List String :=
  ((df_movies.filter (fun r => containsCI r.actors actor_name)).map MovieRow.title).take 10

/-- `fetch_movies_by_director(director_name)`. -/
def fetch_movies_by_director (df_movies : List MovieRow) (director_name : String) :
    List String :=
  ((df_movies.filter (fun r => containsCI r.directors director_name)).map MovieRow.title).take 10

/-- The `recommended` list computed by `RecommendMoviesView.post` (views.py
lines 124–183): a set unioned from the four evidence sources, then
`list(recommended)[:10]`.  The response messages, audit-log write and the
empty-result 404 do not change the list. -/
def recommendMoviesViewPost (cosine_sim : List (List ℚ))
    (indices : List (String × Nat)) (df_movies : List MovieRow)
    (pq : ParsedQuery) : List String :=
  let s1 := pq.specific_movies.foldl (fun acc movie =>
    let recommendations := recommend_movies movie cosine_sim indices df_movies
    if recommendations = [] then acc else setUpdate acc recommendations) []
  let s2 := pq.genres.foldl (fun acc genre =>
    let r := fetch_movies_by_genre df_movies genre
    if r = [] then acc else setUpdate acc r) s1
  let s3 := pq.actors.foldl (fun acc actor =>
    let r := fetch_movies_by_actor df_movies actor
    if r = [] then acc else setUpdate acc r) s2
  let s4 := pq.directors.foldl (fun acc director =>
    let r := fetch_movies_by_director df_movies director
    if r = [] then acc else setUpdate acc r) s3
  s4.take 10

/-! ## `nancy/nlp_utils.py`: vocabularies and fuzzy matching -/

/-- The fixed 20-entry genre vocabulary. -/
def GENRES_LIST : List String :=
  ["action", "comedy", "drama", "thriller", "horror",
   "sci-fi", "romantic", "adventure", "fantasy", "documentary",
   "animation", "mystery", "crime", "biography", "family", "musical",
   "war", "western", "history", "sport"]

/-- The genre-variations dictionary, as (key, value) pairs. -/
def GENRE_VARIATIONS : List (String × String) :=
  [("thrilling", "thriller"),
   ("action-packed", "action"),
   ("romantic", "romantic"),
   ("comedic", "comedy"),
   ("horrifying", "horror"),
   ("sci fi", "sci-fi"),
   ("science fiction", "sci-fi"),
   ("romantic comedy", "romantic"),
   ("adventurous", "adventure"),
   ("fantastical", "fantasy")]

/-- fuzzywuzzy `process.extractOne(query, choices)` (also
`process.extract(query, choices, limit=1)`): the best-scoring choice,
first-seen winning ties; the similarity scorer itself is the external
oracle `score`. -/
def extractOne (score : String → String → Nat) (query : String) :
    List String → Option (String × Nat)
  | [] => none
  | c :: cs =>
    (c :: cs).foldl (fun best choice =>
      match best with
      | none => some (choice, score query choice)
      | some (b, s) => if score query choice > s then some (choice, score query choice)
                       else some (b, s)) none

/-- `get_closest_genre(token_text, threshold=80)`. -/
def get_closest_genre (score : String → String → Nat) (token_text : String)
    (threshold : Nat) : Option String :=
  match extractOne score token_text GENRES_LIST with
  | some (m, s) => if s ≥ threshold then some m else none
  | none => none

/-! ## SpaCy output, as an oracle value -/

/-- One SpaCy token: its text and the attributes `enhanced_parse_query`
reads (`lemma_`, `pos_`, `is_stop`, `is_punct`, `like_num`). -/
structure Token where
  text : String
  lemma_ : String
  pos_ : String
  is_stop : Bool
  is_punct : Bool
  like_num : Bool
deriving DecidableEq

/-- The result of `nlp(query_clean)`: the entity texts (`ent.text` for
`ent` in `doc.ents`) and the token stream. -/
structure NLPDoc where
  ents : List String
  tokens : List Token
deriving DecidableEq

/-! ## Splitting multi-name fields

`re.split(r',|\band\b|\&', ...)` over the comma-join of the non-null
cells, then `strip()`, dropping empties. -/

/-- A regex word character (`\w`): letter, digit or underscore. -/
def isWordChar (c : Char) : Bool :=
  c.isAlphanum || c == '_'

/-- Does this tail start with `nd` followed by a word boundary?  Used to
recognize `\band\b` once an `a` preceded by a boundary has been seen. -/
def andBoundary : List Char → Bool
  | 'n' :: 'd' :: t =>
    match t with
    | [] => true
    | d :: _ => !isWordChar d
  | _ => false

/-- Splitting on `,`, `&`, or the standalone word `and`; `prevW` says
whether the previously scanned character was a word character (for the
`\b` before `and`), `acc` holds the current piece reversed.  The `fuel`
argument only drives structural recursion: every step consumes at least
one character and exactly one unit of fuel, so starting it at the input's
length the zero-fuel branch fires only with the input exhausted, where it
agrees with the empty-input branch. -/
def splitSepAux : Nat → List Char → Bool → List Char → List (List Char)
  | 0, l, _, acc => [acc.reverse ++ l]
  | _ + 1, [], _, acc => [acc.reverse]
  | fuel + 1, c :: rest, prevW, acc =>
    if c = ',' ∨ c = '&' then acc.reverse :: splitSepAux fuel rest false []
    else if c = 'a' ∧ ¬prevW ∧ andBoundary rest then
      acc.reverse :: splitSepAux fuel (rest.drop 2) true []
    else splitSepAux fuel rest (isWordChar c) (c :: acc)

/-- `re.split(r',|\band\b|\&', s)`. -/
def splitSep (s : String) : List String :=
  (splitSepAux s.data.length s.data false []).map String.mk

/-- The name lists built for directors and actors: join the non-null
cells with `', '`, split, strip, drop empties (`nlp_utils.py` lines
77–87). -/
def namesOf (cells : List (Option String)) : List String :=
  ((splitSep (String.intercalate ", " (cells.filterMap id))).map stripStr).filter
    (fun n => n ≠ "")

/-- `set(normalize_string(title) for title in df_movies['title'].str.lower())`. -/
def titlesNormalizedOf (df_movies : List MovieRow) : List String :=
  dedup (df_movies.map (fun r => normalize_string (pyLower r.title)))

/-! ## `enhanced_parse_query`, stage by stage -/

/-- One iteration of the SpaCy-entity loop (`nlp_utils.py` lines 90–112):
the running state is (specific_movies, actors, directors).  The movie
branch appends with no membership check; its `.iloc[0]` raises
(`none` here) when the entity normalizes to a known title but no stored
title equals it lowercased (hyphen differences). -/
def nerStep (df_movies : List MovieRow) (titlesN : List String)
    (director_names : List String) (dirsN : List String)
    (actor_names : List String) (actsN : List String)
    (st : List String × List String × List String) (ent : String) :
    Option (List String × List String × List String) :=
  let entN := normalize_string ent
  let sm := st.1
  let acts := st.2.1
  let dirs := st.2.2
  match (if titlesN.contains entN then
           match df_movies.find? (fun r => pyLower r.title == pyLower ent) with
           | some r => some (sm ++ [r.title])
           | none => none
         else some sm) with
  | none => none
  | some sm =>
    let dirs :=
      if dirsN.contains entN then
        match director_names.find? (fun n => normalize_string n == entN) with
        | some n => if n ≠ "" ∧ n ∉ dirs then dirs ++ [n] else dirs
        | none => dirs
      else dirs
    let acts :=
      if actsN.contains entN then
        match actor_names.find? (fun n => normalize_string n == entN) with
        | some n => if n ≠ "" ∧ n ∉ acts then acts ++ [n] else acts
        | none => acts
      else acts
    some (sm, acts, dirs)

/-- The whole SpaCy-entity loop. -/
def nerPass (df_movies : List MovieRow) (titlesN : List String)
    (director_names : List String) (dirsN : List String)
    (actor_names : List String) (actsN : List String) (ents : List String) :
    Option (List String × List String × List String) :=
  ents.foldlM (nerStep df_movies titlesN director_names dirsN actor_names actsN)
    ([], [], [])

/-- The secondary containment scan for actors or directors
(`nlp_utils.py` lines 116–132), run only when the list is still empty:
for each normalized vocabulary entry contained in the normalized query,
append the first original-cased name normalizing to it. -/
def fallbackScan (vocabN : List String) (names : List String)
    (queryN : String) (out : List String) : List String :=
  vocabN.foldl (fun acc vn =>
    if containsSeq vn.data queryN.data then
      match names.find? (fun n => normalize_string n == vn) with
      | some n => if n ≠ "" ∧ n ∉ acc then acc ++ [n] else acc
      | none => acc
    else acc) out

/-- The secondary containment scan for movie titles (`nlp_utils.py` lines
134–141): the row lookup always succeeds because the scanned label came
from the titles themselves. -/
def movieFallbackScan (df_movies : List MovieRow) (titlesN : List String)
    (queryN : String) (sm : List String) : List String :=
  titlesN.foldl (fun acc mn =>
    if containsSeq mn.data queryN.data then
      match df_movies.find? (fun r => normalize_string (pyLower r.title) == mn) with
      | some r => if r.title ∉ acc then acc ++ [r.title] else acc
      | none => acc
    else acc) sm

/-- `' '.join(token.text for token in doc)`. -/
def phraseOf (doc : NLPDoc) : String :=
  String.intercalate " " (doc.tokens.map Token.text)

/-- The exact whole-phrase title pass (`nlp_utils.py` lines 149–153). -/
def exactPass (df_movies : List MovieRow) (phraseN : String)
    (sm : List String) : List String :=
  ((df_movies.filter (fun r => normalize_string (pyLower r.title) == phraseN)).map
      MovieRow.title).foldl
    (fun acc t => if t ∉ acc then acc ++ [t] else acc) sm

/-- The fuzzy whole-phrase title pass (`nlp_utils.py` lines 155–162):
the single best match, accepted at score ≥ 90, added only when the
resolved title is not already collected. -/
def fuzzyPass (score : String → String → Nat) (df_movies : List MovieRow)
    (titlesN : List String) (phraseN : String) (sm : List String) : List String :=
  match extractOne score phraseN titlesN with
  | some (m, s) =>
    if s ≥ 90 then
      match df_movies.find? (fun r => normalize_string (pyLower r.title) == m) with
      | some r => if r.title ∉ sm then sm ++ [r.title] else sm
      | none => sm
    else sm
  | none => sm

/-- The genre loop (`nlp_utils.py` lines 165–181): skip stop words,
punctuation, number-like and short tokens and non-ADJ/NOUN tags; then try
the lowercased lemma against `GENRES_LIST`, the lowercased text against
`GENRE_VARIATIONS`, and finally `get_closest_genre` at threshold 80. -/
def genrePass (score : String → String → Nat) (tokens : List Token) : List String :=
  tokens.foldl (fun acc tok =>
    if tok.is_stop || tok.is_punct || tok.like_num || tok.text.length < 3 then acc
    else if !(tok.pos_ == "ADJ" || tok.pos_ == "NOUN") then acc
    else
      let lem := pyLower tok.lemma_
      if lem ∈ GENRES_LIST then acc ++ [lem]
      else
        match GENRE_VARIATIONS.find? (fun p => p.1 == pyLower tok.text) with
        | some p => acc ++ [p.2]
        | none =>
          match get_closest_genre score (pyLower tok.text) 80 with
          | some g => acc ++ [g]
          | none => acc) []

/-- `enhanced_parse_query(query, df_movies)`: the stages above in source
order (`query_clean` only feeds the external `nlp`, whose output is the
`doc` oracle); each of the four lists is deduplicated at the end by
`list(set(...))`. -/
def enhanced_parse_query (score : String → String → Nat)
    (df_movies : List MovieRow) (query : String) (doc : NLPDoc) :
    Option ParsedQuery :=
  let query_normalized := normalize_string query
  let titlesN := titlesNormalizedOf df_movies
  let director_names := namesOf (df_movies.map MovieRow.directors)
  let dirsN := dedup (director_names.map normalize_string)
  let actor_names := namesOf (df_movies.map MovieRow.actors)
  let actsN := dedup (actor_names.map normalize_string)
  match nerPass df_movies titlesN director_names dirsN actor_names actsN doc.ents with
  | none => none
  | some (sm0, act0, dir0) =>
    let act1 := if act0 = [] then fallbackScan actsN actor_names query_normalized act0
                else act0
    let dir1 := if dir0 = [] then fallbackScan dirsN director_names query_normalized dir0
                else dir0
    let sm1 := if sm0 = [] then movieFallbackScan df_movies titlesN query_normalized sm0
               else sm0
    let phraseN := normalize_string (phraseOf doc)
    let sm2 := exactPass df_movies phraseN sm1
    let sm3 := fuzzyPass score df_movies titlesN phraseN sm2
    let gs := genrePass score doc.tokens
    some { genres := dedup gs, specific_movies := dedup sm3,
           actors := dedup act1, directors := dedup dir1 }

/-! ## Concrete instances evaluated by the claim theorems and witnesses -/

/-- Two movies with identical descriptions: their TF-IDF rows coincide,
so each cosine row is (1, 1). -/
def dfC1 : List MovieRow :=
  [⟨"A", some "same words", none, none, none⟩,
   ⟨"B", some "same words", none, none, none⟩]

def simC1 : List (List ℚ) := [[1, 1], [1, 1]]

def indC1 : List (String × Nat) := [("a", 0), ("b", 1)]

def mC1 : Models := ⟨some simC1, some dfC1, some indC1, some ()⟩

/-- Six action and six comedy movies with pairwise distinct titles. -/
def dfC3 : List MovieRow :=
  [⟨"A1", none, some "action", none, none⟩, ⟨"A2", none, some "action", none, none⟩,
   ⟨"A3", none, some "action", none, none⟩, ⟨"A4", none, some "action", none, none⟩,
   ⟨"A5", none, some "action", none, none⟩, ⟨"A6", none, some "action", none, none⟩,
   ⟨"B1", none, some "comedy", none, none⟩, ⟨"B2", none, some "comedy", none, none⟩,
   ⟨"B3", none, some "comedy", none, none⟩, ⟨"B4", none, some "comedy", none, none⟩,
   ⟨"B5", none, some "comedy", none, none⟩, ⟨"B6", none, some "comedy", none, none⟩]

def mC3 : Models := ⟨some [], some dfC3, some [], some ()⟩

def pqC3 : ParsedQuery := ⟨["action", "comedy"], [], [], []⟩

def dfC4 : List MovieRow :=
  [⟨"A", none, some "action", none, none⟩, ⟨"B", none, some "action", none, none⟩]

def mC4 : Models := ⟨some [], some dfC4, some [], some ()⟩

def pqC4 : ParsedQuery := ⟨["action"], ["A"], [], []⟩

/-- The reachable partial-load state when `indices.pkl` is corrupt:
`load_models` unpickles cosine_sim, df_movies, indices, tfidf in that
order inside one try/except and stops at the first failure, so the
similarity matrix and the movie table are present while the title index
and the vectorizer never loaded. -/
def mC5 : Models :=
  ⟨some [[1]], some [⟨"A", none, some "action", none, none⟩], none, none⟩

def pqC5 : ParsedQuery := ⟨["action"], [], [], []⟩

/-- A scorer oracle that rates everything 0 (no fuzzy hits). -/
def score0 : String → String → Nat := fun _ _ => 0

def dfC7 : List MovieRow :=
  [⟨"Heat", some "", some "", some "Bob Blue", some "Carol Red"⟩]

/-- SpaCy recognized the title, the director and the actor. -/
def docC7 : NLPDoc := ⟨["Heat", "Carol Red", "Bob Blue"], []⟩

def dfC8 : List MovieRow :=
  [⟨"Heat", some "", none, none, none⟩, ⟨"Heatwave", some "", none, none, none⟩]

/-- A scorer oracle rating "heatwave" at 95 and everything else at 40
(fuzzywuzzy's WRatio likewise scores supersets of the query highly). -/
def scoreC8 : String → String → Nat := fun _ c => if c = "heatwave" then 95 else 40

/-- SpaCy found no entities; the one token is tagged outside ADJ/NOUN. -/
def docC8 : NLPDoc := ⟨[], [⟨"Heat", "heat", "VERB", false, false, false⟩]⟩

def docC10 : NLPDoc := ⟨[], [⟨"action", "action", "NOUN", false, false, false⟩]⟩

/-! # Theorems -/

/-! ## Facts about the character-level case map -/

theorem toLower_def (c : Char) :
    c.toLower = if c.toNat ≥ 65 ∧ c.toNat ≤ 90 then Char.ofNat (c.toNat + 32) else c := rfl

theorem toNat_ofNat_valid {n : Nat} (h : n.isValidChar) : (Char.ofNat n).toNat = n := by
  rw [Char.ofNat, dif_pos h]
  simp [Char.ofNatAux, Char.toNat, UInt32.toNat, UInt32.ofNatCore]

theorem toLower_toLower (c : Char) : c.toLower.toLower = c.toLower := by
  rw [toLower_def c]
  by_cases h : c.toNat ≥ 65 ∧ c.toNat ≤ 90
  · rw [if_pos h, toLower_def,
      toNat_ofNat_valid (Or.inl (by omega)), if_neg (by omega)]
  · rw [if_neg h, toLower_def c, if_neg h]

theorem toLower_eq_hyphen_iff (c : Char) : c.toLower = '-' ↔ c = '-' := by
  constructor
  · intro h
    rw [toLower_def c] at h
    by_cases hc : c.toNat ≥ 65 ∧ c.toNat ≤ 90
    · rw [if_pos hc] at h
      have h45 := congrArg Char.toNat h
      rw [toNat_ofNat_valid (Or.inl (by omega))] at h45
      have hd : ('-' : Char).toNat = 45 := rfl
      omega
    · rwa [if_neg hc] at h
  · intro h
    subst h
    rfl

/-- Claim C9: `normalize_string` removes every hyphen, and it is
idempotent: normalizing twice equals normalizing once.  (It is a plain
total Lean function, so purity and totality hold by construction.) -/
theorem C9_normalize_string_idempotent :
    ∀ s : String, '-' ∉ (normalize_string s).data ∧
      normalize_string (normalize_string s) = normalize_string s := by
  intro s
  constructor
  · intro hmem
    unfold normalize_string at hmem
    simp only [String.data] at hmem
    rcases List.mem_map.mp hmem with ⟨c, hc, hlow⟩
    rcases List.mem_filter.mp hc with ⟨_, hne⟩
    exact absurd ((toLower_eq_hyphen_iff c).mp hlow) (by simpa using hne)
  · unfold normalize_string
    congr 1
    simp only [String.data]
    rw [List.filter_eq_self.mpr, List.map_map]
    · apply List.map_congr_left
      intro c _
      exact toLower_toLower c
    · intro c hc
      rcases List.mem_map.mp hc with ⟨b, hb, hlow⟩
      rcases List.mem_filter.mp hb with ⟨_, hne⟩
      subst hlow
      have hbne : b ≠ '-' := by simpa using hne
      simp only [decide_eq_true_eq]
      intro h
      exact hbne ((toLower_eq_hyphen_iff b).mp h)

/-! ## Normalizing agrees with lowercasing on hyphen-free strings -/

theorem normalize_eq_pyLower_of_no_hyphen (s : String)
    (h : '-' ∉ (pyLower s).data) : normalize_string s = pyLower s := by
  unfold normalize_string pyLower
  congr 1
  rw [List.filter_eq_self.mpr]
  intro c hc
  simp only [decide_eq_true_eq]
  intro hceq
  apply h
  show '-' ∈ s.data.map Char.toLower
  exact List.mem_map.mpr ⟨c, hc, (toLower_eq_hyphen_iff c).mpr hceq⟩

/-! ## Set-as-list facts -/

theorem mem_setAdd_iff (s : List String) (x a : String) :
    a ∈ setAdd s x ↔ a ∈ s ∨ a = x := by
  unfold setAdd
  split
  · rename_i hx
    constructor
    · exact Or.inl
    · rintro (h | rfl)
      · exact h
      · exact hx
  · simp

theorem nodup_setAdd {s : List String} (h : s.Nodup) (x : String) :
    (setAdd s x).Nodup := by
  unfold setAdd
  split
  · exact h
  · rename_i hx
    rw [List.nodup_append]
    exact ⟨h, List.nodup_singleton x, fun a ha hb => by
      rw [List.mem_singleton] at hb
      subst hb
      exact hx ha⟩

theorem nodup_setUpdate {s : List String} (h : s.Nodup) (xs : List String) :
    (setUpdate s xs).Nodup := by
  induction xs generalizing s with
  | nil => exact h
  | cons x xs ih =>
    show (List.foldl setAdd (setAdd s x) xs).Nodup
    exact ih (nodup_setAdd h x)

theorem nodup_dedup (l : List String) : (dedup l).Nodup :=
  nodup_setUpdate List.nodup_nil l

theorem mem_of_mem_foldl_setAdd (x : String) :
    ∀ (l : List String) (s : List String), x ∈ l.foldl setAdd s → x ∈ s ∨ x ∈ l := by
  intro l
  induction l with
  | nil => exact fun s h => Or.inl h
  | cons a l ih =>
    intro s h
    rcases ih (setAdd s a) h with hs | hl
    · rcases (mem_setAdd_iff s a x).mp hs with hs' | rfl
      · exact Or.inl hs'
      · exact Or.inr (List.mem_cons_self _ _)
    · exact Or.inr (List.mem_cons_of_mem a hl)

theorem mem_of_mem_dedup {x : String} {l : List String} (h : x ∈ dedup l) : x ∈ l := by
  rcases mem_of_mem_foldl_setAdd x l [] h with h0 | hl
  · cases h0
  · exact hl

/-- Folding a nodup-preserving step preserves nodup. -/
theorem nodup_foldl {β : Type} (f : List String → β → List String)
    (hf : ∀ s b, s.Nodup → (f s b).Nodup) :
    ∀ (l : List β) (s : List String), s.Nodup → (l.foldl f s).Nodup := by
  intro l
  induction l with
  | nil => exact fun s h => h
  | cons b l ih => exact fun s h => ih (f s b) (hf s b h)

/-! ## The recommendation pool never holds duplicates -/

theorem nodup_specificBranch (m : Models) (pq : ParsedQuery) {recs : List String}
    (h : recs.Nodup) : (specificBranch m pq recs).Nodup := by
  unfold specificBranch
  split
  · split
    · exact h
    · apply nodup_foldl _ _ _ _ h
      intro s movie hs
      dsimp only
      split
      · apply nodup_foldl _ _ _ _ hs
        intro a p ha
        split
        · exact nodup_setAdd ha _
        · exact ha
      · exact hs
  · exact h

theorem nodup_genreBranch (m : Models) (shuffle : List String → List String)
    (pq : ParsedQuery) {recs : List String} (h : recs.Nodup) :
    (genreBranch m shuffle pq recs).Nodup := by
  unfold genreBranch
  split
  · split
    · exact h
    · apply nodup_foldl _ _ _ _ h
      intro s genre hs
      dsimp only
      split
      · exact hs
      · exact nodup_setUpdate hs _
  · exact h

theorem nodup_actorBranch (m : Models) (shuffle : List String → List String)
    (pq : ParsedQuery) {recs : List String} (h : recs.Nodup) :
    (actorBranch m shuffle pq recs).Nodup := by
  unfold actorBranch
  split
  · split
    · exact h
    · apply nodup_foldl _ _ _ _ h
      intro s actor hs
      dsimp only
      split
      · exact hs
      · exact nodup_setUpdate hs _
  · exact h

theorem nodup_directorBranch (m : Models) (shuffle : List String → List String)
    (pq : ParsedQuery) {recs : List String} (h : recs.Nodup) :
    (directorBranch m shuffle pq recs).Nodup := by
  unfold directorBranch
  split
  · split
    · exact h
    · apply nodup_foldl _ _ _ _ h
      intro s director hs
      dsimp only
      split
      · exact hs
      · exact nodup_setUpdate hs _
  · exact h

theorem nodup_discardSeeds (pq : ParsedQuery) {recs : List String}
    (h : recs.Nodup) : (discardSeeds pq recs).Nodup := by
  unfold discardSeeds
  apply nodup_foldl _ _ _ _ h
  intro s movie hs
  exact List.Nodup.filter _ hs

theorem nodup_generate_recommendations (m : Models)
    (shuffle : List String → List String) (pq : ParsedQuery) :
    (generate_recommendations m shuffle pq).Nodup :=
  nodup_discardSeeds pq (nodup_directorBranch m shuffle pq
    (nodup_actorBranch m shuffle pq (nodup_genreBranch m shuffle pq
      (nodup_specificBranch m pq List.nodup_nil))))

/-! ## Everything the seed-discard loop lets through avoids the seeds -/

theorem mem_of_mem_discardFold (x : String) :
    ∀ (seeds l : List String),
      x ∈ seeds.foldl (fun acc movie => acc.filter (fun t => t ≠ movie)) l →
        x ∈ l := by
  intro seeds
  induction seeds with
  | nil => exact fun l h => h
  | cons s ss ih =>
    intro l h
    rw [List.foldl_cons] at h
    exact (List.mem_filter.mp (ih _ h)).1

theorem not_mem_seeds_of_mem_discardFold (x : String) :
    ∀ (seeds l : List String),
      x ∈ seeds.foldl (fun acc movie => acc.filter (fun t => t ≠ movie)) l →
        x ∉ seeds := by
  intro seeds
  induction seeds with
  | nil =>
    intro l _ hmem
    cases hmem
  | cons s ss ih =>
    intro l h hmem
    rw [List.foldl_cons] at h
    rcases List.mem_cons.mp hmem with rfl | hss
    · have hx := mem_of_mem_discardFold x ss _ h
      have := (List.mem_filter.mp hx).2
      simp at this
    · exact ih _ h hss

theorem discardFold_nil :
    ∀ seeds : List String,
      seeds.foldl (fun acc movie => acc.filter (fun t => t ≠ movie)) [] = [] := by
  intro seeds
  induction seeds with
  | nil => rfl
  | cons s ss ih =>
    rw [List.foldl_cons]
    exact ih

/-- Claim C1 (failing input): with two movies "A" and "B" whose
descriptions coincide, cosine row of "B" is (1, 1); Python's stable
descending sort keeps row 0 first, the `[1:11]` slice drops row 0 — not
"B" — and the neighbors of "B" are `["B"]`: the movie itself, contradicting
the claim (and the source's own "Exclude the movie itself" comment).  In
`generate_recommendations` the same slice keeps only "B", which the final
discard then removes, so the seed's true best *other* neighbor "A" is
never returned. -/
theorem C1_neighbors_include_self :
    recommend_movies "B" simC1 indC1 dfC1 = ["B"] ∧
    generate_recommendations mC1 (fun l => l) ⟨[], ["B"], [], []⟩ = [] := by
  decide

/-- Claim C2 (failing input): `Series.drop_duplicates()` deduplicates by
*value*; the values (row positions 0, 1) are distinct, so both entries of
the duplicated normalized title "heat" are retained, not one. -/
theorem C2_duplicate_title_retained :
    createIndices ["Heat", "Heat"] = [("heat", 0), ("heat", 1)] ∧
    ((createIndices ["Heat", "Heat"]).filter (fun p => p.1 == "heat")).length = 2 := by
  decide

/-- Claim C3, counterexample: two genres with six distinct matching
titles each put 12 titles in the pool, and `generate_recommendations`
returns all 12 — more than the default limit of 10: it never truncates. -/
theorem C3_counterexample :
    (generate_recommendations mC3 (fun l => l) pqC3).length = 12 ∧
    10 < (generate_recommendations mC3 (fun l => l) pqC3).length := by
  decide

/-- Claim C3, amended: the result of `generate_recommendations` has no
duplicate titles but is not truncated to the limit; the truncation to 10
unique titles happens in the HTTP view's aggregation
(`RecommendMoviesView.post`), whose list is duplicate-free with length
≤ 10. -/
theorem C3_no_duplicates_and_view_truncates (m : Models)
    (shuffle : List String → List String) (pq : ParsedQuery)
    (cosine_sim : List (List ℚ)) (indices : List (String × Nat))
    (df_movies : List MovieRow) (pq2 : ParsedQuery) :
    (generate_recommendations m shuffle pq).Nodup ∧
    (recommendMoviesViewPost cosine_sim indices df_movies pq2).length ≤ 10 ∧
    (recommendMoviesViewPost cosine_sim indices df_movies pq2).Nodup := by
  refine ⟨nodup_generate_recommendations m shuffle pq, ?_, ?_⟩
  · simp only [recommendMoviesViewPost]
    rw [List.length_take]
    exact min_le_left _ _
  · simp only [recommendMoviesViewPost]
    apply List.Sublist.nodup (List.take_sublist _ _)
    apply nodup_foldl _ _ _ _ ?h3
    case h3 =>
      apply nodup_foldl _ _ _ _ ?h2
      case h2 =>
        apply nodup_foldl _ _ _ _ ?h1
        case h1 =>
          apply nodup_foldl _ _ _ _ List.nodup_nil
          intro s movie hs
          dsimp only
          split
          · exact hs
          · exact nodup_setUpdate hs _
        intro s genre hs
        dsimp only
        split
        · exact hs
        · exact nodup_setUpdate hs _
      intro s actor hs
      dsimp only
      split
      · exact hs
      · exact nodup_setUpdate hs _
    intro s director hs
    dsimp only
    split
    · exact hs
    · exact nodup_setUpdate hs _

/-- Claim C4: no title of `parsed.specific_movies` survives the final
discard loop, so a seed is never among the recommendations. -/
theorem C4_result_excludes_seed_titles (m : Models)
    (shuffle : List String → List String) (pq : ParsedQuery) (t : String)
    (ht : t ∈ generate_recommendations m shuffle pq) :
    t ∉ pq.specific_movies := by
  unfold generate_recommendations discardSeeds at ht
  exact not_mem_seeds_of_mem_discardFold t pq.specific_movies _ ht

theorem C4_witness : ("B" : String) ∉ pqC4.specific_movies :=
  C4_result_excludes_seed_titles mC4 (fun l => l) pqC4 "B" (by decide)

/-- Claim C5, counterexample: when `indices.pkl` fails to unpickle at
startup, the loaded artifacts are the prefix cosine_sim, df_movies —
the title index and vectorizer are absent — yet the engine still serves
the genre branch's result instead of the feature being unavailable. -/
theorem C5_counterexample :
    mC5.cosine_sim = some [[1]] ∧ mC5.df_movies.isSome = true ∧
    mC5.indices = none ∧ mC5.tfidf = none ∧
    generate_recommendations mC5 (fun l => l) pqC5 = ["A"] := by
  decide

/-- Claim C5, amended: the engine degrades branch by branch rather than
disabling the feature: with the movie table missing nothing is ever
served, and with the similarity matrix or the title index missing only
the specific-movies branch is disabled (its pool contribution is empty)
while genre/actor/director results are still served from the loaded
table. -/
theorem C5_per_branch_degradation (m : Models)
    (shuffle : List String → List String) (pq : ParsedQuery)
    (recs : List String) :
    (m.df_movies = none → generate_recommendations m shuffle pq = []) ∧
    (m.cosine_sim = none → specificBranch m pq recs = recs) ∧
    (m.indices = none → specificBranch m pq recs = recs) := by
  obtain ⟨cs, df, ind, tf⟩ := m
  refine ⟨?_, ?_, ?_⟩
  · intro h
    cases h
    cases cs <;> cases ind <;>
      exact discardFold_nil pq.specific_movies
  · intro h
    cases h
    cases df <;> cases ind <;> rfl
  · intro h
    cases h
    cases cs <;> cases df <;> rfl

/-- Claim C6: a title absent from the index after normalization yields an
empty neighbors result and no error, in both entry points.  The labels of
the built index are normalized, hence hyphen-free (`hlab`), so the view's
weaker `.lower()` lookup also misses whenever the normalized lookup
does. -/
theorem C6_unknown_title_yields_empty (title : String)
    (cosine_sim : List (List ℚ)) (ind : List (String × Nat))
    (df : List MovieRow)
    (hlab : ∀ p ∈ ind, '-' ∉ p.1.data)
    (habs : seriesMem ind (normalize_string title) = false) :
    recommend_movies title cosine_sim ind df = [] ∧
    generate_recommendations ⟨some cosine_sim, some df, some ind, some ()⟩
      (fun l => l) ⟨[], [title], [], []⟩ = [] := by
  have hmem : seriesMem ind (pyLower title) = false := by
    cases hx : seriesMem ind (pyLower title)
    · rfl
    · exfalso
      rcases List.any_eq_true.mp hx with ⟨p, hp, hbeq⟩
      have hpe : p.1 = pyLower title := by simpa using hbeq
      have hnh : '-' ∉ (pyLower title).data := hpe ▸ hlab p hp
      have heq : normalize_string title = pyLower title :=
        normalize_eq_pyLower_of_no_hyphen title hnh
      rw [← heq] at hx
      rw [habs] at hx
      exact Bool.false_ne_true hx
  constructor
  · unfold recommend_movies
    simp only [hmem, Bool.false_eq_true, if_false]
  · unfold generate_recommendations directorBranch actorBranch genreBranch
      specificBranch
    simp only [habs, Bool.false_eq_true, if_false, List.foldl_cons, List.foldl_nil,
      reduceIte]
    exact discardFold_nil _

theorem C6_witness :
    recommend_movies "Unknown-Movie" [[1]] [("heat", 0)]
      [⟨"Heat", none, none, none, none⟩] = [] ∧
    generate_recommendations
      ⟨some [[1]], some [⟨"Heat", none, none, none, none⟩],
        some [("heat", 0)], some ()⟩
      (fun l => l) ⟨[], ["Unknown-Movie"], [], []⟩ = [] :=
  C6_unknown_title_yields_empty "Unknown-Movie" [[1]] [("heat", 0)]
    [⟨"Heat", none, none, none, none⟩] (by decide) (by decide)

/-- Claim C7: whenever the SpaCy pass produced at least one hit for
actors, directors or specific movies, the corresponding containment
fallback scan contributes nothing: the final actors/directors are exactly
the (deduplicated) SpaCy hits, and the final specific movies are exactly
the SpaCy hits fed to the unconditional exact/fuzzy whole-phrase passes. -/
theorem C7_fallback_only_when_primary_empty (score : String → String → Nat)
    (df_movies : List MovieRow) (query : String) (doc : NLPDoc)
    (sm0 act0 dir0 : List String) (pq : ParsedQuery)
    (hner : nerPass df_movies (titlesNormalizedOf df_movies)
      (namesOf (df_movies.map MovieRow.directors))
      (dedup ((namesOf (df_movies.map MovieRow.directors)).map normalize_string))
      (namesOf (df_movies.map MovieRow.actors))
      (dedup ((namesOf (df_movies.map MovieRow.actors)).map normalize_string))
      doc.ents = some (sm0, act0, dir0))
    (hout : enhanced_parse_query score df_movies query doc = some pq) :
    (act0 ≠ [] → pq.actors = dedup act0) ∧
    (dir0 ≠ [] → pq.directors = dedup dir0) ∧
    (sm0 ≠ [] → pq.specific_movies =
      dedup (fuzzyPass score df_movies (titlesNormalizedOf df_movies)
        (normalize_string (phraseOf doc))
        (exactPass df_movies (normalize_string (phraseOf doc)) sm0))) := by
  simp only [enhanced_parse_query] at hout
  rw [hner] at hout
  simp only [Option.some.injEq] at hout
  subst hout
  refine ⟨fun h => ?_, fun h => ?_, fun h => ?_⟩
  · simp only [if_neg h]
  · simp only [if_neg h]
  · simp only [if_neg h]

theorem C7_witness :
    (⟨[], ["Heat"], ["Bob Blue"], ["Carol Red"]⟩ : ParsedQuery).actors =
        dedup ["Bob Blue"] ∧
    (⟨[], ["Heat"], ["Bob Blue"], ["Carol Red"]⟩ : ParsedQuery).directors =
        dedup ["Carol Red"] :=
  ⟨(C7_fallback_only_when_primary_empty score0 dfC7 "movies like Heat" docC7
      ["Heat"] ["Bob Blue"] ["Carol Red"]
      ⟨[], ["Heat"], ["Bob Blue"], ["Carol Red"]⟩ (by decide) (by decide)).1
      (by decide),
   (C7_fallback_only_when_primary_empty score0 dfC7 "movies like Heat" docC7
      ["Heat"] ["Bob Blue"] ["Carol Red"]
      ⟨[], ["Heat"], ["Bob Blue"], ["Carol Red"]⟩ (by decide) (by decide)).2.1
      (by decide)⟩

/-- Claim C8, counterexample: on the query "Heat" the exact whole-phrase
pass does find the title "Heat" (second conjunct), yet the fuzzy pass
still adds its distinct best match "Heatwave" at score 95 (third
conjunct), so a fuzzy hit is accepted even though an exact whole-query
match was already found. -/
theorem C8_counterexample :
    (enhanced_parse_query scoreC8 dfC8 "Heat" docC8).map ParsedQuery.specific_movies =
      some ["Heat", "Heatwave"] ∧
    (dfC8.filter (fun r =>
        normalize_string (pyLower r.title) == normalize_string (phraseOf docC8))).map
      MovieRow.title = ["Heat"] ∧
    extractOne scoreC8 (normalize_string (phraseOf docC8)) (titlesNormalizedOf dfC8) =
      some ("heatwave", 95) := by
  decide

/-- Claim C8, amended: the fuzzy whole-phrase pass accepts at most the
single best match of the matcher, at score ≥ 90, and adds it only when
the resolved title is not already among the collected specific movies
(so a fuzzy match duplicating the exact match is not re-added; a distinct
fuzzy title, however, is added even when an exact match was found). -/
theorem C8_fuzzy_adds_one_absent_best_match (score : String → String → Nat)
    (df_movies : List MovieRow) (titlesN : List String) (phraseN : String)
    (sm : List String) :
    ∃ l, fuzzyPass score df_movies titlesN phraseN sm = sm ++ l ∧ l.length ≤ 1 ∧
      ∀ t ∈ l, t ∉ sm ∧
        ∃ mm sc, extractOne score phraseN titlesN = some (mm, sc) ∧ 90 ≤ sc := by
  unfold fuzzyPass
  cases hE : extractOne score phraseN titlesN with
  | none => exact ⟨[], by simp, by simp, by simp⟩
  | some p =>
    obtain ⟨mm, sc⟩ := p
    dsimp only
    by_cases hs : sc ≥ 90
    · rw [if_pos hs]
      cases hF : df_movies.find? (fun r => normalize_string (pyLower r.title) == mm) with
      | none => exact ⟨[], by simp, by simp, by simp⟩
      | some r =>
        dsimp only
        by_cases hin : r.title ∉ sm
        · rw [if_pos hin]
          refine ⟨[r.title], rfl, by simp, ?_⟩
          intro t ht
          rw [List.mem_singleton] at ht
          subst ht
          exact ⟨hin, mm, sc, rfl, hs⟩
        · rw [if_neg hin]
          exact ⟨[], by simp, by simp, by simp⟩
    · rw [if_neg hs]
      exact ⟨[], by simp, by simp, by simp⟩

/-! ## Every emitted genre comes from the fixed vocabulary -/

theorem foldl_mem_inv {β : Type} (P : String → Prop)
    (f : List String → β → List String)
    (hstep : ∀ a b g, g ∈ f a b → g ∈ a ∨ P g) :
    ∀ (l : List β) (acc : List String) (g : String),
      g ∈ l.foldl f acc → g ∈ acc ∨ P g := by
  intro l
  induction l with
  | nil => exact fun acc g h => Or.inl h
  | cons b l ih =>
    intro acc g h
    rw [List.foldl_cons] at h
    rcases ih _ g h with ha | hp
    · exact hstep acc b g ha
    · exact Or.inr hp

theorem extractOne_mem_aux (score : String → String → Nat) (q : String) :
    ∀ (l : List String) (b : Option (String × Nat)) (mm : String) (sc : Nat),
      l.foldl (fun best choice =>
        match best with
        | none => some (choice, score q choice)
        | some (b, s) => if score q choice > s then some (choice, score q choice)
                         else some (b, s)) b = some (mm, sc) →
      b = some (mm, sc) ∨ mm ∈ l := by
  intro l
  induction l with
  | nil => exact fun b mm sc h => Or.inl h
  | cons c cs ih =>
    intro b mm sc h
    rw [List.foldl_cons] at h
    rcases ih _ mm sc h with hb | hc
    · cases b with
      | none =>
        simp only [Option.some.injEq, Prod.mk.injEq] at hb
        exact Or.inr (by rw [← hb.1]; exact List.mem_cons_self _ _)
      | some p =>
        obtain ⟨b0, s0⟩ := p
        dsimp only at hb
        by_cases hgt : score q c > s0
        · rw [if_pos hgt] at hb
          simp only [Option.some.injEq, Prod.mk.injEq] at hb
          exact Or.inr (by rw [← hb.1]; exact List.mem_cons_self _ _)
        · rw [if_neg hgt] at hb
          exact Or.inl hb
    · exact Or.inr (List.mem_cons_of_mem _ hc)

theorem extractOne_mem (score : String → String → Nat) (q : String)
    (choices : List String) (mm : String) (sc : Nat)
    (h : extractOne score q choices = some (mm, sc)) : mm ∈ choices := by
  cases choices with
  | nil => cases h
  | cons c cs =>
    unfold extractOne at h
    rcases extractOne_mem_aux score q (c :: cs) none mm sc h with hb | hc
    · cases hb
    · exact hc

theorem get_closest_genre_mem (score : String → String → Nat)
    (token_text : String) (threshold : Nat) (g : String)
    (h : get_closest_genre score token_text threshold = some g) :
    g ∈ GENRES_LIST := by
  unfold get_closest_genre at h
  cases hE : extractOne score token_text GENRES_LIST with
  | none => rw [hE] at h; cases h
  | some p =>
    obtain ⟨mm, sc⟩ := p
    rw [hE] at h
    dsimp only at h
    by_cases hs : sc ≥ threshold
    · rw [if_pos hs] at h
      cases h
      exact extractOne_mem score token_text GENRES_LIST _ sc hE
    · rw [if_neg hs] at h
      cases h

theorem mem_genrePass_subset (score : String → String → Nat)
    (tokens : List Token) (g : String) (h : g ∈ genrePass score tokens) :
    g ∈ GENRES_LIST := by
  unfold genrePass at h
  have hstep : ∀ (a : List String) (tok : Token) (x : String),
      x ∈ (fun acc tok =>
        if tok.is_stop || tok.is_punct || tok.like_num || tok.text.length < 3 then acc
        else if !(tok.pos_ == "ADJ" || tok.pos_ == "NOUN") then acc
        else
          let lem := pyLower tok.lemma_
          if lem ∈ GENRES_LIST then acc ++ [lem]
          else
            match GENRE_VARIATIONS.find? (fun p => p.1 == pyLower tok.text) with
            | some p => acc ++ [p.2]
            | none =>
              match get_closest_genre score (pyLower tok.text) 80 with
              | some g => acc ++ [g]
              | none => acc) a tok → x ∈ a ∨ x ∈ GENRES_LIST := by
    intro a tok x hx
    dsimp only at hx
    split at hx
    · exact Or.inl hx
    · split at hx
      · exact Or.inl hx
      · split at hx
        · rename_i hlem
          rcases List.mem_append.mp hx with ha | hl
          · exact Or.inl ha
          · rw [List.mem_singleton] at hl
            subst hl
            exact Or.inr hlem
        · split at hx
          · rename_i p hfind
            rcases List.mem_append.mp hx with ha | hl
            · exact Or.inl ha
            · rw [List.mem_singleton] at hl
              subst hl
              have hp : p ∈ GENRE_VARIATIONS := List.mem_of_find?_eq_some hfind
              have hall : ∀ q ∈ GENRE_VARIATIONS, q.2 ∈ GENRES_LIST := by decide
              exact Or.inr (hall p hp)
          · split at hx
            · rename_i gg hclosest
              rcases List.mem_append.mp hx with ha | hl
              · exact Or.inl ha
              · rw [List.mem_singleton] at hl
                subst hl
                exact Or.inr
                  (get_closest_genre_mem score (pyLower tok.text) 80 _ hclosest)
            · exact Or.inl hx
  rcases foldl_mem_inv (fun x => x ∈ GENRES_LIST) _ hstep tokens [] g h with h0 | hg
  · cases h0
  · exact hg

/-- Whatever `enhanced_parse_query` returns, its genres field is exactly
the deduplicated genre loop output. -/
theorem genres_of_enhanced_parse_query (score : String → String → Nat)
    (df_movies : List MovieRow) (query : String) (doc : NLPDoc) (pq : ParsedQuery)
    (hout : enhanced_parse_query score df_movies query doc = some pq) :
    pq.genres = dedup (genrePass score doc.tokens) := by
  simp only [enhanced_parse_query] at hout
  cases hN : nerPass df_movies (titlesNormalizedOf df_movies)
      (namesOf (df_movies.map MovieRow.directors))
      (dedup ((namesOf (df_movies.map MovieRow.directors)).map normalize_string))
      (namesOf (df_movies.map MovieRow.actors))
      (dedup ((namesOf (df_movies.map MovieRow.actors)).map normalize_string))
      doc.ents with
  | none =>
    rw [hN] at hout
    cases hout
  | some trip =>
    obtain ⟨sm0, act0, dir0⟩ := trip
    rw [hN] at hout
    simp only [Option.some.injEq] at hout
    subst hout
    rfl

/-- Claim C10: every genre `enhanced_parse_query` emits — through the
lemma branch, the variations table or the fuzzy branch — belongs to the
fixed 20-entry vocabulary `GENRES_LIST`. -/
theorem C10_genres_within_vocabulary (score : String → String → Nat)
    (df_movies : List MovieRow) (query : String) (doc : NLPDoc)
    (pq : ParsedQuery)
    (hout : enhanced_parse_query score df_movies query doc = some pq)
    (g : String) (hg : g ∈ pq.genres) : g ∈ GENRES_LIST := by
  rw [genres_of_enhanced_parse_query score df_movies query doc pq hout] at hg
  exact mem_genrePass_subset score doc.tokens g (mem_of_mem_dedup hg)

theorem C10_witness : ("action" : String) ∈ GENRES_LIST :=
  C10_genres_within_vocabulary score0 [] "an action movie" docC10
    ⟨["action"], [], [], []⟩ (by decide) "action" (by decide)
